import Mathlib

/-!
Verification of the key-tracker assignment ledger (backend/src/routes/keys.js
against the schema in backend/src/index.js), as a shallow embedding.

Data model: the three SQLite tables (`keys`, `users`, `key_assignments`) are
lists of rows; `AUTOINCREMENT` on `key_assignments.id` is a sequence counter
carried in the state.  `CURRENT_TIMESTAMP` is passed in as a `now : Nat`
parameter.  Each Express route handler becomes a pure function from the
database state (plus the request data) to a new state and an HTTP-level
result.
-/

/-- Row of the `keys` table (id INTEGER PRIMARY KEY, identifier TEXT UNIQUE,
isActive BOOLEAN DEFAULT 1, createdAt DATETIME). -/
structure KeyRow where
  id : Int
  identifier : String
  isActive : Bool
  createdAt : Nat
deriving DecidableEq, Repr

/-- Row of the `users` table (only the fields the ledger reads). -/
structure UserRow where
  id : Int
  email : String
deriving DecidableEq, Repr

/-- Row of the `key_assignments` table.  `returnedAt = none` models SQL NULL:
the assignment is open. -/
structure AssignmentRow where
  id : Nat
  keyId : Int
  assignedTo : Int
  assignedBy : Int
  assignedAt : Nat
  returnedAt : Option Nat
deriving DecidableEq, Repr

/-- The database state: the three tables plus the AUTOINCREMENT sequence for
`key_assignments.id` (the sqlite `lastID` of the next insert is `seq + 1`). -/
structure DBState where
  keys : List KeyRow
  users : List UserRow
  key_assignments : List AssignmentRow
  seq : Nat
deriving DecidableEq, Repr

/-- The freshly created database: all tables empty. -/
def emptyState : DBState := ⟨[], [], [], 0⟩

/-- Predicate of the SQL condition `keyId = ? AND returnedAt IS NULL`. -/
def isOpenFor (k : Int) (r : AssignmentRow) : Bool :=
  r.keyId == k && r.returnedAt == none

/-- All open assignment rows for a key: `SELECT * FROM key_assignments WHERE
keyId = ? AND returnedAt IS NULL` as a list. -/
def openRowsFor (s : DBState) (k : Int) : List AssignmentRow :=
  s.key_assignments.filter (isOpenFor k)

/-- The check phase of the assign handler, a separate SQL statement:
`db.get("SELECT * FROM key_assignments WHERE keyId = ? AND returnedAt IS
NULL", [keyId])` — `get` returns the first matching row, if any. -/
def assignCheck (s : DBState) (keyId : Int) : Option AssignmentRow :=
  s.key_assignments.find? (isOpenFor keyId)

/-- The insert phase of the assign handler, again a separate SQL statement:
`db.run("INSERT INTO key_assignments (keyId, assignedTo, assignedBy) VALUES
(?, ?, ?)", [keyId, assignedTo, req.user.id])`; `assignedAt` takes its
DEFAULT CURRENT_TIMESTAMP, `returnedAt` is NULL.  Returns the new state and
`result.lastID`. -/
def assignInsert (s : DBState) (keyId assignedTo uid : Int) (now : Nat) :
    DBState × Nat :=
  let newId := s.seq + 1
  ({ s with
      key_assignments :=
        s.key_assignments ++ [⟨newId, keyId, assignedTo, uid, now, none⟩],
      seq := newId },
   newId)

/-- Request body of POST /api/keys/assign; a field is `none` when it is
missing or not an integer, in which case `body("...").isInt()` fails. -/
structure AssignBody where
  keyId : Option Int
  assignedTo : Option Int
deriving DecidableEq, Repr

/-- HTTP-level outcome of the assign handler. -/
inductive AssignResult where
  /-- 400 with the express-validator errors array. -/
  | validationError : AssignResult
  /-- 400 `{ error: "Key is already assigned" }`. -/
  | alreadyAssigned : AssignResult
  /-- 201 `{ id: result.lastID }`. -/
  | created : Nat → AssignResult
deriving DecidableEq, Repr

/-- The POST /api/keys/assign handler: validate the body, run the check
statement, and if no open row was found run the insert statement.  `uid` is
`req.user.id`, the authenticated actor. -/
def assignRoute (s : DBState) (b : AssignBody) (uid : Int) (now : Nat) :
    DBState × AssignResult :=
  match b.keyId, b.assignedTo with
  | some keyId, some assignedTo =>
    match assignCheck s keyId with
    | some _ => (s, .alreadyAssigned)
    | none =>
      let r := assignInsert s keyId assignedTo uid now
      (r.1, .created r.2)
  | _, _ => (s, .validationError)

/-- HTTP-level outcome of the return handler (it cannot fail in the model:
the single UPDATE statement always succeeds). -/
inductive ReturnResult where
  /-- 200 `{ message: "Key returned successfully" }`. -/
  | ok : ReturnResult
deriving DecidableEq, Repr

/-- The POST /api/keys/return/:keyId handler: `UPDATE key_assignments SET
returnedAt = CURRENT_TIMESTAMP WHERE keyId = ? AND returnedAt IS NULL`. -/
def returnRoute (s : DBState) (keyId : Int) (now : Nat) :
    DBState × ReturnResult :=
  ({ s with
      key_assignments := s.key_assignments.map (fun r =>
        if isOpenFor keyId r then { r with returnedAt := some now } else r) },
   .ok)

/-- Row of the history response: `ka.*` plus the two joined emails. -/
structure HistoryRow where
  id : Nat
  keyId : Int
  assignedTo : Int
  assignedBy : Int
  assignedAt : Nat
  returnedAt : Option Nat
  assignedToEmail : String
  assignedByEmail : String
deriving DecidableEq, Repr

/-- Builds one output row of the history join from an assignment row and the
two matched user rows. -/
def mkHistoryRow (r : AssignmentRow) (u1 u2 : UserRow) : HistoryRow :=
  ⟨r.id, r.keyId, r.assignedTo, r.assignedBy, r.assignedAt, r.returnedAt,
   u1.email, u2.email⟩

/-- The join and filter of the history query, before ORDER BY:
`FROM key_assignments ka JOIN users u1 ON ka.assignedTo = u1.id
JOIN users u2 ON ka.assignedBy = u2.id WHERE ka.keyId = ?`.
Inner joins: an assignment row with no matching `u1` or `u2` produces no
output row. -/
def joinRows (s : DBState) (k : Int) : List HistoryRow :=
  (s.key_assignments.filter (fun r => r.keyId == k)).flatMap (fun r =>
    (s.users.filter (fun u => u.id == r.assignedTo)).flatMap (fun u1 =>
      (s.users.filter (fun u => u.id == r.assignedBy)).map (fun u2 =>
        mkHistoryRow r u1 u2)))

/-- Insertion step of a stable descending sort on `assignedAt`: the new row
goes after every already-placed row with an `assignedAt` at least as large,
so rows with equal `assignedAt` keep their relative order. -/
def insertByTime (r : HistoryRow) : List HistoryRow → List HistoryRow
  | [] => [r]
  | x :: xs =>
    if r.assignedAt ≤ x.assignedAt then x :: insertByTime r xs
    else r :: x :: xs

/-- Stable sort realising `ORDER BY ka.assignedAt DESC`.  The SQL specifies
no tiebreak; the model resolves ties by keeping the join's production order
(table order, i.e. insertion order). -/
def sortByTimeDesc (l : List HistoryRow) : List HistoryRow :=
  l.foldl (fun acc x => insertByTime x acc) []

/-- The GET /api/keys/history/:keyId handler. -/
def historyRoute (s : DBState) (k : Int) : List HistoryRow :=
  sortByTimeDesc (joinRows s k)

/-- One ledger operation, for reachability statements. -/
inductive LedgerOp where
  | assign : AssignBody → Int → Nat → LedgerOp
  | ret : Int → Nat → LedgerOp
deriving DecidableEq, Repr

/-- State transition of one operation (the response is discarded). -/
def applyOp (s : DBState) : LedgerOp → DBState
  | .assign b uid now => (assignRoute s b uid now).1
  | .ret k now => (returnRoute s k now).1

/-- Runs a sequence of operations from a state. -/
def runOps (s : DBState) (ops : List LedgerOp) : DBState :=
  ops.foldl applyOp s

/-- The single-holder invariant: for every key, at most one open assignment
row exists. -/
def singleHolder (s : DBState) : Prop :=
  ∀ k, (openRowsFor s k).length ≤ 1

/-- Modelled from the spec's words, for comparison with the code's query:
the ordering the spec claims for history — assignedAt descending, ties
broken by assignment id descending. -/
def specOrder (a b : HistoryRow) : Prop :=
  b.assignedAt < a.assignedAt ∨ (a.assignedAt = b.assignedAt ∧ b.id < a.id)

instance (a b : HistoryRow) : Decidable (specOrder a b) := by
  unfold specOrder
  infer_instance

/-! ## Basic lemmas about the predicates -/

theorem isOpenFor_iff (k : Int) (r : AssignmentRow) :
    isOpenFor k r = true ↔ r.keyId = k ∧ r.returnedAt = none := by
  simp [isOpenFor]

theorem isOpenFor_false_iff (k : Int) (r : AssignmentRow) :
    isOpenFor k r = false ↔ ¬(r.keyId = k ∧ r.returnedAt = none) := by
  simp [isOpenFor, and_comm]

/-- Closing the rows the UPDATE matches leaves no row open for the targeted
key. -/
theorem isOpenFor_after_close (k : Int) (now : Nat) (r : AssignmentRow) :
    isOpenFor k (if isOpenFor k r then { r with returnedAt := some now }
      else r) = false := by
  by_cases h : isOpenFor k r = true
  · rcases (isOpenFor_iff k r).mp h with ⟨hk, hret⟩
    simp [isOpenFor, hk, hret]
  · simp only [Bool.not_eq_true] at h
    simp [h]

/-- The UPDATE of the return handler does not change whether a row is open
for a different key. -/
theorem isOpenFor_other_after_close (k k' : Int) (now : Nat)
    (r : AssignmentRow) (hne : k' ≠ k) :
    isOpenFor k' (if isOpenFor k r then { r with returnedAt := some now }
      else r) = isOpenFor k' r := by
  by_cases h : isOpenFor k r = true
  · rcases (isOpenFor_iff k r).mp h with ⟨hk, _⟩
    have h2 : isOpenFor k' r = false := by
      apply (isOpenFor_false_iff _ _).mpr
      rintro ⟨hk2, _⟩
      exact hne (by rw [← hk2]; exact hk)
    simp only [h, if_pos]
    rw [h2]
    apply (isOpenFor_false_iff _ _).mpr
    rintro ⟨hk2, _⟩
    exact hne (by rw [← hk2]; exact hk)
  · simp only [Bool.not_eq_true] at h
    simp [h]

theorem openRowsFor_return_self (s : DBState) (k : Int) (now : Nat) :
    openRowsFor (returnRoute s k now).1 k = [] := by
  unfold openRowsFor returnRoute
  simp only
  apply List.filter_eq_nil_iff.mpr
  intro x hx
  rcases List.mem_map.mp hx with ⟨r, _, rfl⟩
  simp [isOpenFor_after_close]

/-- The return handler does not touch rows of other keys. -/
theorem openRowsFor_return_other (s : DBState) (k k' : Int) (now : Nat)
    (hne : k' ≠ k) :
    openRowsFor (returnRoute s k now).1 k' = openRowsFor s k' := by
  unfold openRowsFor returnRoute
  simp only
  rw [List.filter_map]
  rw [List.filter_congr (fun r _ => by
    simp only [Function.comp]
    exact isOpenFor_other_after_close k k' now r hne)]
  rw [List.map_congr_left (fun r hr => ?_), List.map_id]
  rcases List.mem_filter.mp hr with ⟨_, hopen⟩
  rcases (isOpenFor_iff k' r).mp hopen with ⟨hk, _⟩
  have : isOpenFor k r = false := by
    apply (isOpenFor_false_iff _ _).mpr
    rintro ⟨hk2, _⟩
    exact hne (by rw [← hk]; exact hk2)
  simp [this]

/-- When the check statement found no open row, none exists: `db.get`
returning `undefined` means the WHERE clause matched nothing. -/
theorem assignCheck_none_iff (s : DBState) (k : Int) :
    assignCheck s k = none ↔ openRowsFor s k = [] := by
  unfold assignCheck openRowsFor
  rw [List.find?_eq_none, List.filter_eq_nil_iff]

/-- Open rows after the insert statement, for the inserted key. -/
theorem openRowsFor_insert_self (s : DBState) (keyId assignedTo uid : Int)
    (now : Nat) :
    openRowsFor (assignInsert s keyId assignedTo uid now).1 keyId
      = openRowsFor s keyId
        ++ [⟨s.seq + 1, keyId, assignedTo, uid, now, none⟩] := by
  unfold openRowsFor assignInsert
  simp [List.filter_append, isOpenFor]

/-- Open rows after the insert statement, for any other key. -/
theorem openRowsFor_insert_other (s : DBState) (keyId assignedTo uid : Int)
    (now : Nat) (k' : Int) (hne : k' ≠ keyId) :
    openRowsFor (assignInsert s keyId assignedTo uid now).1 k'
      = openRowsFor s k' := by
  unfold openRowsFor assignInsert
  simp only [List.filter_append]
  rw [show List.filter (isOpenFor k')
      [(⟨s.seq + 1, keyId, assignedTo, uid, now, none⟩ : AssignmentRow)]
      = [] from ?_]
  · simp
  · simp [isOpenFor]
    intro h
    exact absurd (by rw [h]) hne

/-- The assign handler either leaves the state unchanged (validation error,
key already assigned) or performs exactly the insert statement. -/
theorem assignRoute_cases (s : DBState) (b : AssignBody) (uid : Int)
    (now : Nat) :
    (assignRoute s b uid now).1 = s ∨
    ∃ keyId assignedTo, b.keyId = some keyId ∧ b.assignedTo = some assignedTo
      ∧ assignCheck s keyId = none
      ∧ assignRoute s b uid now
          = ((assignInsert s keyId assignedTo uid now).1,
             .created (s.seq + 1)) := by
  unfold assignRoute
  rcases b with ⟨bk, ba⟩
  rcases bk with _ | keyId
  · exact Or.inl rfl
  · rcases ba with _ | assignedTo
    · exact Or.inl rfl
    · simp only
      rcases h : assignCheck s keyId with _ | r
      · exact Or.inr ⟨keyId, assignedTo, rfl, rfl, h, rfl⟩
      · exact Or.inl rfl

/-! ## Claim theorems, first batch -/

/-- C10: a single return operation closes every open assignment row for the
given key: from any prior state, including states with several open rows for
the key, after `return` there are exactly zero open assignment rows for that
key. -/
theorem return_closes_all_open_rows (s : DBState) (k : Int) (now : Nat) :
    openRowsFor (returnRoute s k now).1 k = [] :=
  openRowsFor_return_self s k now

/-- C8: the return operation leaves the Key Registry untouched: the `keys`
table (every row, hence every `isActive` flag) and the `users` table are
identical before and after, whatever the state. -/
theorem return_frame_keys (s : DBState) (k : Int) (now : Nat) :
    (returnRoute s k now).1.keys = s.keys ∧
    (returnRoute s k now).1.users = s.users :=
  ⟨rfl, rfl⟩

/-- C2 evaluation: the check and the insert of the assign handler are two
separate statements; in the interleaving where both requests run their
check before either runs its insert, both checks pass and both inserts go
through, leaving two open rows for the same key — the claimed atomicity
does not hold in the code. -/
theorem assign_check_insert_race :
    assignCheck emptyState 1 = none ∧
    (openRowsFor (assignInsert
        (assignInsert emptyState 1 7 2 10).1 1 8 3 11).1 1).length = 2 := by
  constructor
  · rfl
  · rfl

/-- C3 counterexample: in the empty database the key table has no row at
all, yet assigning keyId 5 succeeds with 201 instead of failing with
KeyNotFound — the handler never consults the `keys` table. -/
theorem assign_no_key_check_cex :
    emptyState.keys = [] ∧
    (assignRoute emptyState ⟨some 5, some 7⟩ 1 10).2 = .created 1 := by
  constructor
  · rfl
  · rfl

/-- C3 amended: the assign handler performs no key-existence or activity
check; for any state in which keyId matches no active key row, a
well-formed request still succeeds with 201 (provided no open assignment
exists), inserting a row for the unknown key. -/
theorem assign_ignores_key_registry (s : DBState)
    (keyId assignedTo uid : Int) (now : Nat)
    (hmissing : ∀ kr ∈ s.keys, kr.id ≠ keyId ∨ kr.isActive = false)
    (hchk : assignCheck s keyId = none) :
    (assignRoute s ⟨some keyId, some assignedTo⟩ uid now).2
      = .created (s.seq + 1) := by
  unfold assignRoute
  simp [hchk, assignInsert]

/-- Witness for the amended C3 at a concrete state: one inactive key row
with a different id, no assignments. -/
theorem assign_ignores_key_registry_witness :
    (assignRoute ⟨[⟨9, "K-9", false, 0⟩], [], [], 0⟩
      ⟨some 5, some 7⟩ 1 10).2 = .created 1 :=
  assign_ignores_key_registry ⟨[⟨9, "K-9", false, 0⟩], [], [], 0⟩ 5 7 1 10
    (by intro kr hkr; simp at hkr; subst hkr; right; rfl) rfl

/-- C7: whenever the assign operation fails — body validation error or
KeyAlreadyAssigned — the database state after the operation equals the
state before it. -/
theorem assign_failure_leaves_state (s : DBState) (b : AssignBody)
    (uid : Int) (now : Nat)
    (hfail : (assignRoute s b uid now).2 = .validationError ∨
             (assignRoute s b uid now).2 = .alreadyAssigned) :
    (assignRoute s b uid now).1 = s := by
  rcases assignRoute_cases s b uid now with h | ⟨_, _, _, _, _, heq⟩
  · exact h
  · rw [heq] at hfail
    rcases hfail with h | h <;> exact absurd h (by simp)

/-- Witness for C7: assigning an already-assigned key fails and leaves the
concrete state unchanged. -/
theorem assign_failure_leaves_state_witness :
    (assignRoute ⟨[], [], [⟨1, 4, 7, 2, 0, none⟩], 1⟩
        ⟨some 4, some 8⟩ 3 10).2 = .alreadyAssigned ∧
    (assignRoute ⟨[], [], [⟨1, 4, 7, 2, 0, none⟩], 1⟩
        ⟨some 4, some 8⟩ 3 10).1 = ⟨[], [], [⟨1, 4, 7, 2, 0, none⟩], 1⟩ :=
  ⟨rfl, assign_failure_leaves_state ⟨[], [], [⟨1, 4, 7, 2, 0, none⟩], 1⟩
    ⟨some 4, some 8⟩ 3 10 (Or.inr rfl)⟩

/-- C4: the assign operation (well-formed body) fails with
KeyAlreadyAssigned exactly when an open assignment row for keyId exists at
check time; otherwise it appends exactly one new open row — holder the
requested `assignedTo`, actor the authenticated `uid`, `returnedAt` null —
and answers 201 with the new row's id. -/
theorem assign_already_iff_open_row (s : DBState)
    (keyId assignedTo uid : Int) (now : Nat) :
    ((assignRoute s ⟨some keyId, some assignedTo⟩ uid now).2
        = .alreadyAssigned ↔
      ∃ r ∈ s.key_assignments, r.keyId = keyId ∧ r.returnedAt = none) ∧
    ((∀ r ∈ s.key_assignments, ¬(r.keyId = keyId ∧ r.returnedAt = none)) →
      (assignRoute s ⟨some keyId, some assignedTo⟩ uid now).2
          = .created (s.seq + 1) ∧
      (assignRoute s ⟨some keyId, some assignedTo⟩ uid now).1.key_assignments
        = s.key_assignments
            ++ [⟨s.seq + 1, keyId, assignedTo, uid, now, none⟩]) := by
  rcases h : assignCheck s keyId with _ | r
  · have hall : ∀ r ∈ s.key_assignments, ¬ isOpenFor keyId r = true :=
      List.find?_eq_none.mp h
    constructor
    · constructor
      · intro habs
        unfold assignRoute at habs
        simp only [h] at habs
        exact absurd habs (by simp [assignInsert])
      · rintro ⟨r, hr, hopen⟩
        exact absurd ((isOpenFor_iff keyId r).mpr hopen) (hall r hr)
    · intro _
      unfold assignRoute
      simp [h, assignInsert]
  · have hmem := List.mem_of_find?_eq_some h
    have hopen := (isOpenFor_iff keyId r).mp (List.find?_some h)
    constructor
    · constructor
      · intro _
        exact ⟨r, hmem, hopen⟩
      · intro _
        unfold assignRoute
        simp [h]
    · intro hall
      exact absurd hopen (hall r hmem)

/-- Witness for C4 at a concrete state: one closed row for key 4; a fresh
assign of key 4 succeeds, appending the expected open row and returning the
next sequence id. -/
theorem assign_already_iff_open_row_witness :
    (assignRoute ⟨[], [], [⟨1, 4, 7, 2, 0, some 3⟩], 1⟩
        ⟨some 4, some 8⟩ 3 10).2 = .created 2 ∧
    (assignRoute ⟨[], [], [⟨1, 4, 7, 2, 0, some 3⟩], 1⟩
        ⟨some 4, some 8⟩ 3 10).1.key_assignments
      = [⟨1, 4, 7, 2, 0, some 3⟩, ⟨2, 4, 8, 3, 10, none⟩] :=
  (assign_already_iff_open_row ⟨[], [], [⟨1, 4, 7, 2, 0, some 3⟩], 1⟩
      4 8 3 10).2 (by decide)

/-- C5: the return operation always reports success; when the key has no
open assignment it mutates nothing (the state is unchanged, a silent
no-op); when exactly one open row exists, precisely that row gets
`returnedAt = now` and every other row is untouched. -/
theorem return_noop_or_closes (s : DBState) (k : Int) (now : Nat) :
    (returnRoute s k now).2 = .ok ∧
    (openRowsFor s k = [] → (returnRoute s k now).1 = s) ∧
    (∀ r, openRowsFor s k = [r] →
      (returnRoute s k now).1.key_assignments
        = s.key_assignments.map (fun x =>
            if x = r then { x with returnedAt := some now } else x)) := by
  refine ⟨rfl, ?_, ?_⟩
  · intro h
    have hall : ∀ x ∈ s.key_assignments, ¬ isOpenFor k x = true :=
      List.filter_eq_nil_iff.mp h
    unfold returnRoute
    simp only
    have h' : ∀ x ∈ s.key_assignments,
        (fun r => if isOpenFor k r then { r with returnedAt := some now }
          else r) x = id x := by
      intro x hx
      have hfalse : isOpenFor k x = false := by simpa using hall x hx
      simp [hfalse]
    rw [List.map_congr_left h', List.map_id]
  · intro r h
    have hr_open : isOpenFor k r = true := by
      have : r ∈ List.filter (isOpenFor k) s.key_assignments := by
        rw [show List.filter (isOpenFor k) s.key_assignments = [r] from h]
        exact List.mem_singleton_self r
      exact (List.mem_filter.mp this).2
    have huniq : ∀ x ∈ s.key_assignments, isOpenFor k x = true → x = r := by
      intro x hx hopen
      have : x ∈ List.filter (isOpenFor k) s.key_assignments :=
        List.mem_filter.mpr ⟨hx, hopen⟩
      rw [show List.filter (isOpenFor k) s.key_assignments = [r] from h]
        at this
      exact List.mem_singleton.mp this
    unfold returnRoute
    simp only
    apply List.map_congr_left
    intro x hx
    by_cases hopen : isOpenFor k x = true
    · have hxr := huniq x hx hopen
      subst hxr
      simp [hopen]
    · have hxr : ¬ x = r := fun hc => hopen (hc ▸ hr_open)
      have hfalse : isOpenFor k x = false := by simpa using hopen
      simp [hfalse, hxr]

/-- Witness for C5: a closed-row-only state is untouched by return; a state
with one open row for key 4 has exactly that row closed at time 10. -/
theorem return_noop_or_closes_witness :
    (returnRoute ⟨[], [], [⟨1, 4, 7, 2, 0, some 3⟩], 1⟩ 4 10).1
      = ⟨[], [], [⟨1, 4, 7, 2, 0, some 3⟩], 1⟩ ∧
    (returnRoute ⟨[], [], [⟨1, 4, 7, 2, 0, none⟩], 1⟩ 4 10).1.key_assignments
      = [⟨1, 4, 7, 2, 0, some 10⟩] := by
  constructor
  · exact (return_noop_or_closes ⟨[], [], [⟨1, 4, 7, 2, 0, some 3⟩], 1⟩
      4 10).2.1 (by decide)
  · rw [(return_noop_or_closes ⟨[], [], [⟨1, 4, 7, 2, 0, none⟩], 1⟩
      4 10).2.2 ⟨1, 4, 7, 2, 0, none⟩ (by decide)]
    decide

/-- The empty database satisfies the single-holder invariant. -/
theorem singleHolder_empty : singleHolder emptyState := by
  intro k
  simp [openRowsFor, emptyState]

/-- Each ledger operation preserves the single-holder invariant. -/
theorem singleHolder_step (s : DBState) (op : LedgerOp)
    (h : singleHolder s) : singleHolder (applyOp s op) := by
  cases op with
  | ret k now =>
    intro k'
    show (openRowsFor (returnRoute s k now).1 k').length ≤ 1
    by_cases hk : k' = k
    · subst hk
      rw [openRowsFor_return_self]
      simp
    · rw [openRowsFor_return_other s k k' now hk]
      exact h k'
  | assign b uid now =>
    rcases assignRoute_cases s b uid now with heq | ⟨keyId, assignedTo, _, _,
      hchk, heq⟩
    · show singleHolder (assignRoute s b uid now).1
      rw [heq]
      exact h
    · intro k'
      show (openRowsFor (assignRoute s b uid now).1 k').length ≤ 1
      rw [show (assignRoute s b uid now).1
          = (assignInsert s keyId assignedTo uid now).1 from by rw [heq]]
      by_cases hk : k' = keyId
      · subst hk
        rw [openRowsFor_insert_self, (assignCheck_none_iff s k').mp hchk]
        simp
      · rw [openRowsFor_insert_other s keyId assignedTo uid now k' hk]
        exact h k'

/-- Any sequence of operations from an invariant-satisfying state stays in
the invariant. -/
theorem singleHolder_runOps (s : DBState) (h : singleHolder s)
    (ops : List LedgerOp) : singleHolder (runOps s ops) := by
  induction ops generalizing s with
  | nil => exact h
  | cons op ops ih => exact ih _ (singleHolder_step s op h)

/-- C1: every assign and return operation preserves the single-holder
invariant, so in every state reachable from the fresh database by any
sequence of operations, each key has at most one open assignment row. -/
theorem single_holder_invariant :
    (∀ s op, singleHolder s → singleHolder (applyOp s op)) ∧
    (∀ ops, singleHolder (runOps emptyState ops)) :=
  ⟨fun s op h => singleHolder_step s op h,
   fun ops => singleHolder_runOps emptyState singleHolder_empty ops⟩

/-- Witness for C1: one concrete step from the empty database keeps the
invariant. -/
theorem single_holder_invariant_witness :
    singleHolder (applyOp emptyState (.assign ⟨some 1, some 7⟩ 2 10)) :=
  single_holder_invariant.1 emptyState (.assign ⟨some 1, some 7⟩ 2 10)
    singleHolder_empty

/-! ## Sorting lemmas for the history query -/

theorem insertByTime_perm (r : HistoryRow) (l : List HistoryRow) :
    (insertByTime r l).Perm (r :: l) := by
  induction l with
  | nil => exact List.Perm.refl _
  | cons x xs ih =>
    unfold insertByTime
    by_cases h : r.assignedAt ≤ x.assignedAt
    · rw [if_pos h]
      exact (ih.cons x).trans (List.Perm.swap r x xs)
    · rw [if_neg h]

theorem foldl_insert_perm (l : List HistoryRow) :
    ∀ acc, (l.foldl (fun a x => insertByTime x a) acc).Perm (acc ++ l) := by
  induction l with
  | nil => intro acc; simp
  | cons x xs ih =>
    intro acc
    simp only [List.foldl_cons]
    refine (ih (insertByTime x acc)).trans ?_
    refine (((insertByTime_perm x acc).append_right xs).trans ?_)
    exact List.perm_middle.symm

theorem sortByTimeDesc_perm (l : List HistoryRow) :
    (sortByTimeDesc l).Perm l := by
  have h := foldl_insert_perm l []
  simpa [sortByTimeDesc] using h

theorem insertByTime_sorted (r : HistoryRow) (l : List HistoryRow)
    (h : l.Pairwise (fun a b => b.assignedAt ≤ a.assignedAt)) :
    (insertByTime r l).Pairwise (fun a b => b.assignedAt ≤ a.assignedAt) := by
  induction l with
  | nil => simp [insertByTime]
  | cons x xs ih =>
    rcases List.pairwise_cons.mp h with ⟨hx, hxs⟩
    unfold insertByTime
    by_cases hle : r.assignedAt ≤ x.assignedAt
    · rw [if_pos hle]
      apply List.pairwise_cons.mpr
      refine ⟨?_, ih hxs⟩
      intro y hy
      rcases List.mem_cons.mp ((insertByTime_perm r xs).mem_iff.mp hy) with
        rfl | hyxs
      · exact hle
      · exact hx y hyxs
    · rw [if_neg hle]
      push_neg at hle
      apply List.pairwise_cons.mpr
      refine ⟨?_, h⟩
      intro y hy
      rcases List.mem_cons.mp hy with rfl | hyxs
      · exact le_of_lt hle
      · exact le_trans (hx y hyxs) (le_of_lt hle)

theorem foldl_insert_sorted (l : List HistoryRow) :
    ∀ acc, acc.Pairwise (fun a b => b.assignedAt ≤ a.assignedAt) →
      (l.foldl (fun a x => insertByTime x a) acc).Pairwise
        (fun a b => b.assignedAt ≤ a.assignedAt) := by
  induction l with
  | nil => intro acc h; exact h
  | cons x xs ih =>
    intro acc h
    exact ih _ (insertByTime_sorted x acc h)

theorem sortByTimeDesc_sorted (l : List HistoryRow) :
    (sortByTimeDesc l).Pairwise (fun a b => b.assignedAt ≤ a.assignedAt) :=
  foldl_insert_sorted l [] (List.Pairwise.nil)

/-- Membership in the history join: exactly the key's assignment rows that
match a holder row and an actor row in `users`. -/
theorem mem_joinRows_iff (s : DBState) (k : Int) (h : HistoryRow) :
    h ∈ joinRows s k ↔
      ∃ r ∈ s.key_assignments, ∃ u1 ∈ s.users, ∃ u2 ∈ s.users,
        r.keyId = k ∧ u1.id = r.assignedTo ∧ u2.id = r.assignedBy ∧
        h = mkHistoryRow r u1 u2 := by
  unfold joinRows
  simp only [List.mem_flatMap, List.mem_filter, List.mem_map, beq_iff_eq]
  constructor
  · rintro ⟨r, ⟨hr, hrk⟩, u1, ⟨hu1, hu1e⟩, u2, ⟨hu2, hu2e⟩, rfl⟩
    exact ⟨r, hr, u1, hu1, u2, hu2, hrk, hu1e, hu2e, rfl⟩
  · rintro ⟨r, hr, u1, hu1, u2, hu2, hrk, hu1e, hu2e, rfl⟩
    exact ⟨r, ⟨hr, hrk⟩, u1, ⟨hu1, hu1e⟩, u2, ⟨hu2, hu2e⟩, rfl⟩

/-- C6 counterexample: two assignments of key 1 share the same `assignedAt`;
the query orders only by `assignedAt DESC`, so the tie comes out in
production order (id 1 before id 2), not in the claimed id-descending
order — the history output violates the spec's tiebreak. -/
theorem history_tiebreak_cex :
    (historyRoute ⟨[], [⟨7, "alice"⟩],
        [⟨1, 1, 7, 7, 5, some 6⟩, ⟨2, 1, 7, 7, 5, none⟩], 2⟩ 1).map
        (fun h => h.id) = [1, 2] ∧
    ¬ (historyRoute ⟨[], [⟨7, "alice"⟩],
        [⟨1, 1, 7, 7, 5, some 6⟩, ⟨2, 1, 7, 7, 5, none⟩], 2⟩ 1).Pairwise
        specOrder := by
  constructor
  · rfl
  · decide

/-- C6 amended: history(keyId) returns exactly the key's assignment rows
that join to an existing holder row and actor row (each with their emails),
open and closed alike, ordered by `assignedAt` descending; the query has no
id tiebreak, so rows with equal `assignedAt` keep the join's production
order rather than descending id. -/
theorem history_rows_sorted (s : DBState) (k : Int) :
    (historyRoute s k).Pairwise (fun a b => b.assignedAt ≤ a.assignedAt) ∧
    (∀ h, h ∈ historyRoute s k ↔
      ∃ r ∈ s.key_assignments, ∃ u1 ∈ s.users, ∃ u2 ∈ s.users,
        r.keyId = k ∧ u1.id = r.assignedTo ∧ u2.id = r.assignedBy ∧
        h = mkHistoryRow r u1 u2) := by
  constructor
  · exact sortByTimeDesc_sorted (joinRows s k)
  · intro h
    rw [show (h ∈ historyRoute s k) = (h ∈ sortByTimeDesc (joinRows s k))
      from rfl]
    rw [(sortByTimeDesc_perm (joinRows s k)).mem_iff]
    exact mem_joinRows_iff s k h

/-- C9: assign never validates the holder id — it succeeds and stores a row
for a holder absent from `users` — and the history query's inner joins then
silently omit that stored row: no history row carries that holder id. -/
theorem assign_unvalidated_holder_hidden (s : DBState)
    (keyId assignedTo uid : Int) (now : Nat)
    (hnou : ∀ u ∈ s.users, u.id ≠ assignedTo)
    (hchk : assignCheck s keyId = none) :
    (assignRoute s ⟨some keyId, some assignedTo⟩ uid now).2
      = .created (s.seq + 1) ∧
    (⟨s.seq + 1, keyId, assignedTo, uid, now, none⟩ : AssignmentRow)
      ∈ (assignRoute s ⟨some keyId, some assignedTo⟩ uid now).1.key_assignments
      ∧
    ∀ h ∈ historyRoute
        (assignRoute s ⟨some keyId, some assignedTo⟩ uid now).1 keyId,
      h.assignedTo ≠ assignedTo := by
  have hroute : assignRoute s ⟨some keyId, some assignedTo⟩ uid now
      = ((assignInsert s keyId assignedTo uid now).1,
         .created (s.seq + 1)) := by
    unfold assignRoute
    simp [hchk, assignInsert]
  refine ⟨by rw [hroute], ?_, ?_⟩
  · rw [hroute]
    show _ ∈ s.key_assignments ++ [_]
    simp
  · intro h hmem
    rw [hroute] at hmem
    have husers : (assignInsert s keyId assignedTo uid now).1.users
        = s.users := rfl
    have hmem' := ((sortByTimeDesc_perm _).mem_iff.mp hmem)
    rcases (mem_joinRows_iff _ keyId h).mp hmem' with
      ⟨r, _, u1, hu1, _, _, _, hu1e, _, rfl⟩
    rw [husers] at hu1
    intro hceq
    exact hnou u1 hu1 (by rw [hu1e]; exact hceq)

/-- Witness for C9: from the empty database (no users at all), assigning
key 1 to the nonexistent user 7 succeeds, stores the row, and the history
of key 1 shows no row with holder 7. -/
theorem assign_unvalidated_holder_hidden_witness :
    (assignRoute emptyState ⟨some 1, some 7⟩ 2 10).2 = .created 1 ∧
    (⟨1, 1, 7, 2, 10, none⟩ : AssignmentRow)
      ∈ (assignRoute emptyState ⟨some 1, some 7⟩ 2 10).1.key_assignments ∧
    ∀ h ∈ historyRoute (assignRoute emptyState ⟨some 1, some 7⟩ 2 10).1 1,
      h.assignedTo ≠ 7 :=
  assign_unvalidated_holder_hidden emptyState 1 7 2 10
    (by simp [emptyState]) rfl
